import Mathlib

/-!
Verification development for a collection of stock-screening scripts
(crash_recovery_strategy, stock_scanner_go, dragon_breakout,
multidim_resonance_strategy, volume_price_strategy, weekly_box_breakout).

Each script reads one CSV of daily bars per symbol, computes technical
indicators (RSI, MACD, KDJ, moving averages, volume ratios) with pandas,
applies a cascade of filters and returns an optional result row; a main
function fans the per-symbol work over a pool, joins display names and
writes a sorted report.

The embedding below models the pandas/numpy float columns with an
IEEE-754-style scalar `PV` (rational value, plus/minus infinity, NaN:
comparisons involving NaN are `false`, division by zero follows numpy),
series as `List` values, and each script's per-symbol pipeline as a total
function into `Option` of a result-row structure.  Exceptional exits of
the Python code (`return None`, swallowed exceptions) appear as `none`.
-/

set_option maxRecDepth 10000

namespace StockScreen

/-- A pandas/numpy float cell: a rational number, positive or negative
infinity, or NaN. -/
inductive PV where
  | nan
  | inf
  | ninf
  | val (q : ℚ)
deriving DecidableEq, Inhabited

/-- IEEE-style addition: NaN absorbs, `inf + ninf = nan`. -/
def pvAdd : PV → PV → PV
  | .nan, _ => .nan
  | _, .nan => .nan
  | .inf, .ninf => .nan
  | .ninf, .inf => .nan
  | .inf, _ => .inf
  | _, .inf => .inf
  | .ninf, _ => .ninf
  | _, .ninf => .ninf
  | .val a, .val b => .val (a + b)

/-- IEEE-style subtraction. -/
def pvSub : PV → PV → PV
  | .nan, _ => .nan
  | _, .nan => .nan
  | .inf, .inf => .nan
  | .ninf, .ninf => .nan
  | .inf, _ => .inf
  | _, .inf => .ninf
  | .ninf, _ => .ninf
  | _, .ninf => .inf
  | .val a, .val b => .val (a - b)

/-- IEEE-style multiplication: `inf * 0 = nan`, signs as usual. -/
def pvMul : PV → PV → PV
  | .nan, _ => .nan
  | _, .nan => .nan
  | .inf, .inf => .inf
  | .inf, .ninf => .ninf
  | .ninf, .inf => .ninf
  | .ninf, .ninf => .inf
  | .inf, .val b => if b = 0 then .nan else if 0 < b then .inf else .ninf
  | .val a, .inf => if a = 0 then .nan else if 0 < a then .inf else .ninf
  | .ninf, .val b => if b = 0 then .nan else if 0 < b then .ninf else .inf
  | .val a, .ninf => if a = 0 then .nan else if 0 < a then .ninf else .inf
  | .val a, .val b => .val (a * b)

/-- numpy-style division: `x/0 = inf` for `x > 0`, `0/0 = nan`,
`x/inf = 0`, `inf/inf = nan`. -/
def pvDiv : PV → PV → PV
  | .nan, _ => .nan
  | _, .nan => .nan
  | .inf, .inf => .nan
  | .inf, .ninf => .nan
  | .ninf, .inf => .nan
  | .ninf, .ninf => .nan
  | .inf, .val b => if 0 ≤ b then .inf else .ninf
  | .ninf, .val b => if 0 ≤ b then .ninf else .inf
  | .val _, .inf => .val 0
  | .val _, .ninf => .val 0
  | .val a, .val b =>
    if b = 0 then (if a = 0 then .nan else if 0 < a then .inf else .ninf)
    else .val (a / b)

/-- Strict less-than on floats: any comparison with NaN is `false`. -/
def pvLtB : PV → PV → Bool
  | .nan, _ => false
  | _, .nan => false
  | .inf, _ => false
  | _, .inf => true
  | .ninf, .ninf => false
  | .ninf, _ => true
  | _, .ninf => false
  | .val a, .val b => decide (a < b)

/-- Non-strict less-than on floats: any comparison with NaN is `false`. -/
def pvLeB : PV → PV → Bool
  | .nan, _ => false
  | _, .nan => false
  | .ninf, _ => true
  | _, .ninf => false
  | _, .inf => true
  | .inf, _ => false
  | .val a, .val b => decide (a ≤ b)

def pvGtB (a b : PV) : Bool := pvLtB b a

def pvGeB (a b : PV) : Bool := pvLeB b a

/-- Python's round-half-to-even on rationals, to an integer. -/
def roundHE (x : ℚ) : ℤ :=
  let f := ⌊x⌋
  if x - f < 1 / 2 then f
  else if (1 : ℚ) / 2 < x - f then f + 1
  else if 2 ∣ f then f else f + 1

/-- `round(x, 2)` of Python. -/
def round2 (x : ℚ) : ℚ := (roundHE (x * 100) : ℚ) / 100

/-- `round(x, 1)` of Python. -/
def round1 (x : ℚ) : ℚ := (roundHE (x * 10) : ℚ) / 10

/-- Apply a rounding function to a float cell; NaN and infinities are kept. -/
def pvRound (r : ℚ → ℚ) : PV → PV
  | .nan => .nan
  | .inf => .inf
  | .ninf => .ninf
  | .val q => .val (r q)

/-- Sum of a rational list. -/
def qsum (xs : List ℚ) : ℚ := xs.foldr (· + ·) 0

/-- Arithmetic mean of a rational list (`0` on the empty list; every use
below is guarded so the list is non-empty). -/
def qmean (xs : List ℚ) : ℚ := qsum xs / (xs.length : ℚ)

/-- Maximum of a rational list (`0` on the empty list; guarded below). -/
def qmax : List ℚ → ℚ
  | [] => 0
  | a :: as => as.foldl max a

/-- Minimum of a rational list (`0` on the empty list; guarded below). -/
def qmin : List ℚ → ℚ
  | [] => 0
  | a :: as => as.foldl min a

/-- The trailing window of length `n` ending at index `i` (both ends
clipped to the list), as used by `Series.rolling(n)`. -/
def winEnd (n i : ℕ) (xs : List α) : List α := (xs.take (i + 1)).drop (i + 1 - n)

/-- The last `n` elements, as in `Series.tail(n)` / `iloc[-n:]`. -/
def lastN (n : ℕ) (xs : List α) : List α := xs.drop (xs.length - n)

/-- Last element with a default, as in `iloc[-1]` (all uses are guarded by
length checks in the pipelines). -/
def lastD (d : α) (xs : List α) : α := (xs.getLast?).getD d

/-- Mean of a window of float cells: NaN (and `inf + ninf`) contaminate,
an empty window gives NaN. -/
def pvMean (w : List PV) : PV :=
  pvDiv (w.foldr pvAdd (.val 0)) (.val (w.length : ℚ))

/-- `Series.rolling(window=n).mean()` with the pandas default
`min_periods = n`: NaN before index `n-1`, and NaN whenever the window
contains a NaN. -/
def rollMeanPV (n : ℕ) (xs : List PV) : List PV :=
  (List.range xs.length).map fun i =>
    if i + 1 < n then .nan else pvMean (winEnd n i xs)

/-- `Series.rolling(window=n).min()` on a NaN-free rational column. -/
def rollMinQ (n : ℕ) (xs : List ℚ) : List PV :=
  (List.range xs.length).map fun i =>
    if i + 1 < n then .nan else .val (qmin (winEnd n i xs))

/-- `Series.rolling(window=n).max()` on a NaN-free rational column. -/
def rollMaxQ (n : ℕ) (xs : List ℚ) : List PV :=
  (List.range xs.length).map fun i =>
    if i + 1 < n then .nan else .val (qmax (winEnd n i xs))

/-- `Series.shift(1)`: NaN in front, last element dropped. -/
def shift1 (xs : List PV) : List PV := .nan :: xs.dropLast

/-- `Series.diff()`: first difference with NaN at position 0. -/
def diffsQ (xs : List ℚ) : List PV :=
  (List.range xs.length).map fun i =>
    match i with
    | 0 => .nan
    | j + 1 => .val (xs.getD (j + 1) 0 - xs.getD j 0)

/-- Helper for `ewm(adjust=False)`: the recursive tail after the seed. -/
def ewmQGo (a y : ℚ) : List ℚ → List ℚ
  | [] => []
  | x :: xs =>
    let y2 := (1 - a) * y + a * x
    y2 :: ewmQGo a y2 xs

/-- `Series.ewm(alpha=a, adjust=False).mean()` on a NaN-free rational
column, seeded by the first value. -/
def ewmQ (a : ℚ) : List ℚ → List ℚ
  | [] => []
  | x :: xs => x :: ewmQGo a x xs

/-- Helper for `ewm(adjust=True)`: carries the weighted numerator and the
weight sum; NaN entries are skipped but still decay the weights
(pandas default `ignore_na=False`). -/
def ewmAdjGo (a : ℚ) (num : PV) (w : ℚ) : List PV → List PV
  | [] => []
  | x :: xs =>
    let numD := pvMul (.val (1 - a)) num
    let wD := (1 - a) * w
    match x with
    | .nan =>
      (if wD = 0 then PV.nan else pvDiv numD (.val wD)) :: ewmAdjGo a numD wD xs
    | v =>
      let num2 := pvAdd numD v
      let w2 := wD + 1
      pvDiv num2 (.val w2) :: ewmAdjGo a num2 w2 xs

/-- `Series.ewm(alpha=a).mean()` with the pandas defaults `adjust=True`,
`ignore_na=False` (used via `ewm(com=c)`, i.e. `a = 1/(1+c)`). -/
def ewmAdjPV (a : ℚ) (xs : List PV) : List PV := ewmAdjGo a (.val 0) 0 xs

/-- Python's `str.zfill(6)`: pad on the left with zeros to length 6. -/
def zfill6 (s : String) : String :=
  if s.length < 6 then String.mk (List.replicate (6 - s.length) (Char.ofNat 48)) ++ s
  else s

/-- Python's `needle in hay` substring test. -/
def strContains (hay needle : String) : Bool := (hay.splitOn needle).length != 1

/-! ## Data model

One CSV row of a per-symbol data file.  Column names in the sources are
Chinese; the correspondence is noted on each field.  Dates are modelled
as day serial numbers. -/

structure Bar where
  date : ℕ       -- 日期
  code : String  -- 股票代码 (crash_recovery and dragon_breakout read it from the last row)
  opn : ℚ        -- 开盘
  high : ℚ       -- 最高
  low : ℚ        -- 最低
  close : ℚ      -- 收盘
  vol : ℚ        -- 成交量
  turnover : ℚ   -- 换手率
  pct : ℚ        -- 涨跌幅
deriving DecidableEq, Inhabited

/-- An ordered per-symbol series of daily bars. -/
def Series := List Bar

instance : DecidableEq Series := inferInstanceAs (DecidableEq (List Bar))

instance : Inhabited Series := ⟨([] : List Bar)⟩

def closes (s : Series) : List ℚ := s.map Bar.close

def highs (s : Series) : List ℚ := s.map Bar.high

def lows (s : Series) : List ℚ := s.map Bar.low

def vols (s : Series) : List ℚ := s.map Bar.vol

def turnovers (s : Series) : List ℚ := s.map Bar.turnover

/-- `df.iloc[-1]` on a series (all uses below are guarded by length checks). -/
def lastBar (s : Series) : Bar := lastD default s

def seriesLength (s : Series) : ℕ := List.length s

/-! ## Shared indicator pieces

`delta.where(delta > 0, 0)` and `(-delta.where(delta < 0, 0))` from the
RSI computations: the NaN of `diff()` at position 0 fails both
comparisons, so the first gain/loss entry is `0`. -/

def gainsOf (cl : List ℚ) : List PV :=
  (diffsQ cl).map fun d => if pvLtB (.val 0) d then d else .val 0

def lossesOf (cl : List ℚ) : List PV :=
  (diffsQ cl).map fun d => if pvLtB d (.val 0) then pvSub (.val 0) d else .val 0

/-- `100 - (100 / (1 + rs))`, the body shared by both RSI variants. -/
def rsiExpr (rs : PV) : PV :=
  pvSub (.val 100) (pvDiv (.val 100) (pvAdd (.val 1) rs))

/-- `EMA(span)` via `ewm(span=n, adjust=False)`: alpha = 2/(n+1). -/
def emaQ (span : ℕ) (cl : List ℚ) : List ℚ := ewmQ (2 / ((span : ℚ) + 1)) cl

/-- `DIF = EMA12 - EMA26` of the MACD (crash_recovery / dragon_breakout /
multidim_resonance all use spans 12/26/9 with `adjust=False`). -/
def macdDIF (cl : List ℚ) : List ℚ :=
  (List.zip (emaQ 12 cl) (emaQ 26 cl)).map fun p => p.1 - p.2

/-- `DEA = EMA(DIF, 9)`. -/
def macdDEA (cl : List ℚ) : List ℚ := ewmQ (2 / 10) (macdDIF cl)

/-! ## crash_recovery_strategy.py -/

/-- The RSI(14) cell at index `i` of `calculate_indicators`
(`100 - (100 / (1 + gain.rolling(14).mean() / loss.rolling(14).mean()))`). -/
def crashRSIat (cl : List ℚ) (i : ℕ) : PV :=
  rsiExpr (pvDiv ((rollMeanPV 14 (gainsOf cl)).getD i .nan)
                 ((rollMeanPV 14 (lossesOf cl)).getD i .nan))

/-- The RSI(14) column. -/
def crashRSI (cl : List ℚ) : List PV :=
  (List.range cl.length).map (crashRSIat cl)

/-- The buy-signal cell at index `i` of `backtest_and_screen`:
`RSI < 35  &  volume < V_MA5 * 0.85  &  DIF >= DEA  &  DIF > DIF.shift(1)`. -/
def crashBuyAt (s : Series) (i : ℕ) : Bool :=
  let cl := closes s
  pvLtB (crashRSIat cl i) (.val 35)
  && pvLtB (.val ((vols s).getD i 0))
           (pvMul ((rollMeanPV 5 ((vols s).map PV.val)).getD i .nan) (.val (17 / 20)))
  && pvGeB (.val ((macdDIF cl).getD i 0)) (.val ((macdDEA cl).getD i 0))
  && pvGtB (.val ((macdDIF cl).getD i 0)) ((shift1 ((macdDIF cl).map PV.val)).getD i .nan)

/-- The `buy_signals` column. -/
def crashBuySignals (s : Series) : List Bool :=
  (List.range (seriesLength s)).map (crashBuyAt s)

/-- Result row of `backtest_and_screen` (the dict literal at the end). -/
structure CrashRow where
  code : String      -- 代码
  price : ℚ          -- 现价
  pct : ℚ            -- 涨跌幅%
  rsi : PV           -- RSI (rounded to 2 decimals)
  winRate : ℚ        -- 历史胜率%
  avgProfit : ℚ      -- 历史平均收益%
  strength : String  -- 信号强度
  advice : String    -- 操作建议
deriving DecidableEq, Inhabited

/-- `backtest_and_screen` of crash_recovery_strategy.py.  The blanket
`except` of the source is modelled by totality: every exit is `none` or
`some row`. -/
def backtest_and_screen (s : Series) : Option CrashRow :=
  if seriesLength s < 60 then none else
  let latest := lastBar s
  let code := zfill6 latest.code
  if code.startsWith "30" || !(code.startsWith "00" || code.startsWith "60") then none else
  let cl := closes s
  let buy := crashBuySignals s
  let sigIdx := (List.range (seriesLength s)).filter fun i => buy.getD i false
  let profits := (sigIdx.filter fun i => i + 10 < seriesLength s).map fun i =>
    (cl.getD (i + 10) 0 - cl.getD i 0) / cl.getD i 0
  let histProfit : ℚ := if profits = [] then 0 else qmean profits
  let winRate : ℚ :=
    if profits = [] then 0
    else ((profits.filter fun p => 0 < p).length : ℚ) / (profits.length : ℚ)
  if ¬(5 ≤ latest.close ∧ latest.close ≤ 20) then none else
  if lastD false buy && decide (-3 ≤ latest.pct) then
    let ma10last := lastD .nan (rollMeanPV 10 (cl.map PV.val))
    let rsiLast := lastD .nan (crashRSI cl)
    let score : ℕ := 70 + (if pvGtB (.val latest.close) ma10last then 15 else 0)
                        + (if pvLtB rsiLast (.val 30) then 15 else 0)
    some { code := code
           price := latest.close
           pct := latest.pct
           rsi := pvRound round2 rsiLast
           winRate := round2 (winRate * 100)
           avgProfit := round2 (histProfit * 100)
           strength := if 85 ≤ score then "★★★★★ (一击必中)" else "★★★★☆ (优选试错)"
           advice := "满足‘缩量+MACD金叉’狙击点。3331法则分批入场，止损设在MA20。" }
  else none

/-! ## stock_scanner_go.py -/

/-- The RSI6 cell at index `i` of `calculate_indicators`: as the 14-day
variant, but the zero entries of the loss average are first replaced by
NaN (`loss.replace(0, np.nan)`). -/
def scanRSI6at (cl : List ℚ) (i : ℕ) : PV :=
  let lossCell := (rollMeanPV 6 (lossesOf cl)).getD i .nan
  rsiExpr (pvDiv ((rollMeanPV 6 (gainsOf cl)).getD i .nan)
                 (if lossCell = .val 0 then .nan else lossCell))

/-- The RSI6 column. -/
def scanRSI6 (cl : List ℚ) : List PV :=
  (List.range cl.length).map (scanRSI6at cl)

/-- The raw stochastic `rsv` column over an `n`-bar high/low window:
`(close - low_n) / (high_n - low_n) * 100`. -/
def rsvList (s : Series) (n : ℕ) : List PV :=
  (List.range (seriesLength s)).map fun i =>
    pvMul (pvDiv (pvSub (.val ((closes s).getD i 0)) ((rollMinQ n (lows s)).getD i .nan))
                 (pvSub ((rollMaxQ n (highs s)).getD i .nan) ((rollMinQ n (lows s)).getD i .nan)))
          (.val 100)

/-- `kdj_k = rsv.ewm(com=2).mean()` of stock_scanner_go (alpha = 1/3,
pandas defaults `adjust=True`, `ignore_na=False`). -/
def scanKdjK (s : Series) : List PV := ewmAdjPV (1 / 3) (rsvList s 9)

/-- Result row of `process_single_stock`.  The two percent columns are
stored as the rounded numbers that Python interpolates into the
`f"...%"` display strings. -/
structure ScanRow where
  code : String   -- 代码
  name : String   -- 名称
  date : ℕ        -- 最新日期
  price : ℚ       -- 现价 (round 2)
  volRat : PV     -- 今日量比 (round 2)
  rsi6 : PV       -- RSI6 (round 1)
  kdjK : PV       -- K值 (round 1)
  room : PV       -- 距60日线空间 (round 1, formatted with a percent sign)
  pct : ℚ         -- 今日涨跌 (round 1, formatted with a percent sign)
deriving DecidableEq, Inhabited

/-- `process_single_stock` of stock_scanner_go.py, for one symbol whose
file name gives `stockCode` and whose name-table entry is `stockName`.
The source's `change = latest['涨跌幅'] if '涨跌幅' in latest else 0` is
modelled by the always-present `pct` field. -/
def process_single_stock (stockCode stockName : String) (s : Series) : Option ScanRow :=
  if strContains stockName.toUpper "ST" then none else
  if seriesLength s < 60 then none else
  let latest := lastBar s
  let cl := closes s
  let rsi6 := lastD .nan (scanRSI6 cl)
  let kdjK := lastD .nan (scanKdjK s)
  let ma5 := lastD .nan (rollMeanPV 5 (cl.map PV.val))
  let ma60 := lastD .nan (rollMeanPV 60 (cl.map PV.val))
  let turn30 := lastD .nan (rollMeanPV 30 ((turnovers s).map PV.val))
  let volMa5 := lastD .nan (rollMeanPV 5 (shift1 ((vols s).map PV.val)))
  let volRat := pvDiv (.val latest.vol) volMa5
  let room := pvMul (pvDiv (pvSub ma60 (.val latest.close)) (.val latest.close)) (.val 100)
  if decide (latest.close < 5) || pvGtB turn30 (.val (5 / 2)) then none else
  if pvLtB room (.val 8) || decide ((3 : ℚ) / 2 < latest.pct) then none else
  if pvGtB rsi6 (.val 25) || pvGtB kdjK (.val 30) then none else
  if pvLtB (.val latest.close) ma5 then none else
  if !(pvLeB (.val (1 / 5)) volRat && pvLeB volRat (.val (17 / 20))) then none else
  some { code := stockCode
         name := stockName
         date := latest.date
         price := round2 latest.close
         volRat := pvRound round2 volRat
         rsi6 := pvRound round1 rsi6
         kdjK := pvRound round1 kdjK
         room := pvRound round1 room
         pct := round1 latest.pct }

/-! ## dragon_breakout.py -/

/-- `drop_ratio = (high_1y - last_price) / high_1y` with
`high_1y = df['最高'].tail(250).max()`. -/
def dragonDropRatio (s : Series) : PV :=
  let high1y := qmax (lastN 250 (highs s))
  pvDiv (.val (high1y - (lastBar s).close)) (.val high1y)

/-- `is_vol_boost = vol_today > vol_ma5 * 1.8` with
`vol_ma5 = df['成交量'].tail(5).mean()` (window includes today). -/
def dragonVolBoost (s : Series) : Bool :=
  decide (qmean (lastN 5 (vols s)) * (9 / 5) < (lastBar s).vol)

/-- `is_breakout = last_price > df['最高'].tail(21).iloc[:-1].max()`. -/
def dragonBreakout (s : Series) : Bool :=
  decide (qmax ((lastN 21 (highs s)).dropLast) < (lastBar s).close)

/-- `is_gold_cross = diff[-1] > dea[-1] and diff[-2] <= dea[-2]`. -/
def dragonGoldCross (s : Series) : Bool :=
  let dif := macdDIF (closes s)
  let dea := macdDEA (closes s)
  decide (lastD 0 dea < lastD 0 dif) && decide (lastD 0 dif.dropLast ≤ lastD 0 dea.dropLast)

/-- The accumulated score of `screen_logic`: +40 for a deep drop, +30 for
the volume boost, +30 for the MACD gold cross.  `is_breakout` does not
contribute. -/
def dragonScore (s : Series) : ℕ :=
  (if pvGtB (dragonDropRatio s) (.val (3 / 5)) then 40 else 0)
  + (if dragonVolBoost s then 30 else 0)
  + (if dragonGoldCross s then 30 else 0)

/-- Shanghai/Shenzhen main-board code filter of dragon_breakout. -/
def dragonPrefixOk (code : String) : Bool :=
  code.startsWith "60" || code.startsWith "00" || code.startsWith "01"

/-- Result row of `screen_logic`.  `dropDepth` is the raw ratio that the
Python formats as a percent string; `strength` is the score that the
Python formats as `f"{score}分"`. -/
structure DragonRow where
  date : ℕ          -- 日期
  code : String     -- 代码
  name : String     -- 名称
  price : ℚ         -- 现价
  dropDepth : PV    -- 跌幅深度
  strength : ℕ      -- 买入信号强度
  advice : String   -- 操作建议
deriving DecidableEq, Inhabited

/-- `screen_logic` of dragon_breakout.py.  `nameOf` is the loaded
`names_df` dictionary with its `"未知"` default. -/
def screen_logic (nameOf : String → String) (s : Series) : Option DragonRow :=
  if seriesLength s < 60 then none else
  let code := zfill6 (lastBar s).code
  if !dragonPrefixOk code then none else
  let lastPrice := (lastBar s).close
  if ¬(5 ≤ lastPrice ∧ lastPrice ≤ 20) then none else
  let score := dragonScore s
  if 70 ≤ score then
    some { date := (lastBar s).date
           code := code
           name := nameOf code
           price := lastPrice
           dropDepth := dragonDropRatio s
           strength := score
           advice :=
             if 90 ≤ score then "【重仓博弈】超跌+倍量金叉共振，极大概率反转"
             else if dragonBreakout s then "【试错买入】突破颈线位，观察持续性"
             else "【轻仓观察】形态走好，等待右侧确立" }
  else none

/-! ## multidim_resonance_strategy.py -/

/-- `K` of `calculate_kdj` (n=9, m1=3): `rsv.ewm(com=2).mean()`. -/
def mdK (s : Series) : List PV := ewmAdjPV (1 / 3) (rsvList s 9)

/-- `D = K.ewm(com=2).mean()`. -/
def mdD (s : Series) : List PV := ewmAdjPV (1 / 3) (mdK s)

/-- `J = 3K - 2D`. -/
def mdJ (s : Series) : List PV :=
  (List.zip (mdK s) (mdD s)).map fun p =>
    pvSub (pvMul (.val 3) p.1) (pvMul (.val 2) p.2)

/-- `MACD = (DIF - DEA) * 2` histogram of `calculate_macd`. -/
def mdHist (cl : List ℚ) : List ℚ :=
  (List.zip (macdDIF cl) (macdDEA cl)).map fun p => (p.1 - p.2) * 2

/-- Result row of `analyze_stock`; the name column is joined later in
`main`.  `pct` is the number interpolated into the `f"...%"` string. -/
structure MDRow where
  code : String     -- code
  price : ℚ         -- 最新价
  pct : ℚ           -- 涨跌幅
  strength : ℕ      -- 强度 (clamped to 100)
  advice : String   -- 建议
  reason : String   -- 战法理由
deriving DecidableEq, Inhabited

/-- `analyze_stock` of multidim_resonance_strategy.py. -/
def analyze_stock (code : String) (s : Series) : Option MDRow :=
  if strContains code "ST" || code.startsWith "300" then none else
  if seriesLength s < 60 then none else
  let lastClose := (lastBar s).close
  if ¬(5 ≤ lastClose ∧ lastClose ≤ 20) then none else
  let cl := closes s
  let ma5 := lastD .nan (rollMeanPV 5 (cl.map PV.val))
  let ma10 := lastD .nan (rollMeanPV 10 (cl.map PV.val))
  let ma60 := lastD .nan (rollMeanPV 60 (cl.map PV.val))
  let ma60prev := lastD .nan (rollMeanPV 60 (cl.map PV.val)).dropLast
  let dif := macdDIF cl
  let dea := macdDEA cl
  let hist := mdHist cl
  let last := lastBar s
  let trendOk := pvGtB (.val last.close) ma60
    && pvGeB ma60 (pvMul ma60prev (.val (499 / 500)))
  let macdCross :=
    (decide (lastD 0 dif.dropLast ≤ lastD 0 dea.dropLast) && decide (lastD 0 dea < lastD 0 dif))
    || (decide (lastD 0 dea < lastD 0 dif) && decide (lastD 0 hist.dropLast < lastD 0 hist))
  let kdjUp := pvGtB (lastD .nan (mdK s)) (lastD .nan (mdD s))
    && pvGtB (lastD .nan (mdJ s)) (lastD .nan (mdJ s).dropLast)
  let maUp := pvGeB ma5 ma10
  let volRatio := pvDiv (.val last.vol) (.val (qmean (lastN 5 (vols s))))
  if trendOk && macdCross && kdjUp && maUp then
    let strength : ℕ := 70 + (if pvGtB volRatio (.val (3 / 2)) then 15 else 0)
                           + (if decide ((3 : ℚ) < last.pct) then 15 else 0)
    some { code := code
           price := lastClose
           pct := last.pct
           strength := min strength 100
           advice :=
             if 90 ≤ strength then "【极强】重仓一击必中，主升浪起点"
             else if 80 ≤ strength then "【走强】建议适量试错，关注5日线支撑"
             else "【初步转强】轻仓观察，确认站稳长线"
           reason := "长线走平+三位一体金叉" }
  else none

/-! ## volume_price_strategy.py -/

/-- Result row of `analyze_stock` (volume_price_strategy).  `codeCell` is
the `'代码'` column: the raw code with a leading single-quote character.
`strength` is the `'信号强度'` column: the score formatted as a percent
string, which is also the key of the final report sort. -/
structure VPRow where
  date : ℕ          -- 日期
  codeCell : String -- 代码
  name : String     -- 名称
  close : ℚ         -- 收盘
  pct : ℚ           -- 涨跌幅%
  turnover : ℚ      -- 换手率%
  volRatio : ℚ      -- 量比 (round 2)
  signal : String   -- 战法信号
  strength : String -- 信号强度
  advice : String   -- 操作建议
deriving DecidableEq, Inhabited

/-- The leading single-quote (ASCII 39) that volume_price_strategy
prepends to the code column. -/
def quoteMark : String := String.singleton (Char.ofNat 39)

/-- `analyze_stock` of volume_price_strategy.py. -/
def vpAnalyze (code stockName : String) (s : Series) : Option VPRow :=
  if seriesLength s < 30 then none else
  if code.startsWith "30" || code.startsWith "688" || code.startsWith "8"
     || code.startsWith "4" then none else
  if strContains stockName "ST" || strContains stockName "退" || strContains stockName "PT"
    then none else
  let lastRow := lastBar s
  let currPrice := lastRow.close
  if ¬(5 ≤ currPrice ∧ currPrice ≤ 20) then none else
  let ma20 := lastD .nan (rollMeanPV 20 ((closes s).map PV.val))
  if pvLtB (.val currPrice) ma20 then none else
  let avgVol5 := qmean (lastN 5 (vols s).dropLast)
  let volRatio : ℚ := if 0 < avgVol5 then lastRow.vol / avgVol5 else 0
  let entity : ℚ :=
    if lastRow.high ≠ lastRow.low then (currPrice - lastRow.low) / (lastRow.high - lastRow.low)
    else 0
  if (3 ≤ lastRow.pct ∧ lastRow.pct ≤ 15 / 2) ∧ (3 / 2 ≤ volRatio ∧ volRatio ≤ 4)
     ∧ (3 ≤ lastRow.turnover ∧ lastRow.turnover ≤ 10) then
    if 4 / 5 < entity then
      some { date := lastRow.date
             codeCell := quoteMark ++ code
             name := stockName
             close := currPrice
             pct := lastRow.pct
             turnover := lastRow.turnover
             volRatio := round2 volRatio
             signal := "绝杀：量价齐升启动"
             strength := toString (95 : ℕ) ++ "%"
             advice := "主力介入痕迹明显且筹码稳定，一击必中概率高，建议建仓。" }
    else none
  else if (-(3 / 2) ≤ lastRow.pct ∧ lastRow.pct ≤ 3 / 2) ∧ volRatio < 1 / 2
          ∧ pvLtB ma20 (.val currPrice) then
    some { date := lastRow.date
           codeCell := quoteMark ++ code
           name := stockName
           close := currPrice
           pct := lastRow.pct
           turnover := lastRow.turnover
           volRatio := round2 volRatio
           signal := "优选：缩量洗盘末端"
           strength := toString (80 : ℕ) ++ "%"
           advice := "极度缩量暗示洗盘结束，可轻仓试错，等待放量拉升。" }
  else none

/-! ## weekly_box_breakout.py -/

/-- A weekly OHLCV bar produced by `df.resample('W').agg(...)`.  `week`
is the calendar-week index that pandas uses as the row label. -/
structure WBar where
  week : ℕ
  opn : ℚ
  high : ℚ
  low : ℚ
  close : ℚ
  vol : ℚ
deriving DecidableEq, Inhabited

/-- Calendar-week index of a day serial number (day 0 is a Thursday as in
the Unix epoch; pandas `'W'` weeks end on Sunday). -/
def weekIdx (d : ℕ) : ℕ := (d + 3) / 7

/-- Group consecutive bars that fall in the same calendar week (the
grouping underlying `df.resample('W')`; weeks with no bars produce no
group, matching the `.dropna()`). -/
def chunkByWeek : List Bar → List (List Bar)
  | [] => []
  | b :: bs =>
    match chunkByWeek bs with
    | [] => [[b]]
    | [] :: gs => [b] :: gs
    | (c :: cs) :: gs =>
      if weekIdx b.date = weekIdx c.date then (b :: c :: cs) :: gs
      else [b] :: (c :: cs) :: gs

/-- The per-week aggregation dict of the source:
`开盘: first, 最高: max, 最低: min, 收盘: last, 成交量: sum`. -/
def aggWeek (g : List Bar) : WBar :=
  { week := weekIdx g.headI.date
    opn := g.headI.opn
    high := qmax (g.map Bar.high)
    low := qmin (g.map Bar.low)
    close := (lastD default g).close
    vol := qsum (g.map Bar.vol) }

/-- `logic_df`: the daily series resampled to weekly bars. -/
def resampleW (s : Series) : List WBar := (chunkByWeek s).map aggWeek

/-- Result row of `screen_stock` (weekly_box_breakout).  `boxAmp` is the
raw amplitude that Python formats as `f"{...:.2%}"`. -/
structure WeeklyRow where
  code : String    -- 代码
  name : String    -- 名称
  price : ℚ        -- 最新价 (round 2)
  boxAmp : PV      -- 箱体振幅
  volMult : PV     -- 成交量倍数 (round 2)
  strength : ℕ     -- 信号强度
  advice : String  -- 操作建议
  stopRef : ℚ      -- 止损位参考 (round 2)
deriving DecidableEq, Inhabited

/-- `screen_stock` of weekly_box_breakout.py. -/
def screen_stock (code stockName : String) (s : Series) : Option WeeklyRow :=
  if seriesLength s < 80 then none else
  if code.startsWith "30" || code.startsWith "68" || code.startsWith "4"
     || code.startsWith "8" then none else
  if strContains stockName "ST" || strContains stockName "*" then none else
  let w := resampleW s
  if w.length < 30 then none else
  let lastClose := (lastD default w).close
  if ¬(5 ≤ lastClose ∧ lastClose ≤ 20) then none else
  let wcl := (w.map WBar.close).map PV.val
  let ma5 := lastD .nan (rollMeanPV 5 wcl)
  let ma10 := lastD .nan (rollMeanPV 10 wcl)
  let ma20 := lastD .nan (rollMeanPV 20 wcl)
  let ma60 := lastD .nan (rollMeanPV 60 wcl)
  let ma60prev := lastD .nan (rollMeanPV 60 wcl).dropLast
  let obs := lastN 12 w.dropLast
  let boxMax := qmax (obs.map WBar.high)
  let boxMin := qmin (obs.map WBar.low)
  let boxAmp := pvDiv (.val (boxMax - boxMin)) (.val boxMin)
  let avgVolume := qmean (obs.map WBar.vol)
  let cur := lastD default w
  let volRatio := pvDiv (.val cur.vol) (.val avgVolume)
  let condBox := pvLeB boxAmp (.val (1 / 5))
  let condVolume := pvGeB volRatio (.val (9 / 5))
  let condPrice := decide (boxMax * (103 / 100) ≤ cur.close) && decide (cur.opn < cur.close)
  let condMa := pvGtB ma5 ma10 && pvGtB ma10 ma20 && pvGtB ma60 ma60prev
  if condBox && condVolume && condPrice && condMa then
    let score : ℕ := 60 + (if pvGeB volRatio (.val (5 / 2)) then 15 else 0)
                        + (if pvLeB boxAmp (.val (3 / 25)) then 15 else 0)
                        + (if decide (lastClose < 10) then 10 else 0)
    some { code := code
           name := stockName
           price := round2 lastClose
           boxAmp := boxAmp
           volMult := pvRound round2 volRatio
           strength := score
           advice :=
             if 90 ≤ score then "【一击必中】信号极强。主力极度控盘且放量坚决，建议回踩箱顶不破时果断介入。"
             else if 80 ≤ score then "【优选标的】形态标准。属于标准突破，建议底仓试错，观察次周续航能力。"
             else "【普通观察】符合战法但爆发力存疑，建议仅作复盘跟踪，暂不重仓。"
           stopRef := round2 boxMax }
  else none

/-! ## Report sorting and run-level control flow

pandas `sort_values` is embedded as an insertion sort over the same key
order (the claims below depend only on the key order of the output, which
any comparison sort realises). -/

/-- crash_recovery `main`: `sort_values(by=['历史胜率%', '现价'],
ascending=[False, True])`. -/
def crashLe (a b : CrashRow) : Prop :=
  b.winRate < a.winRate ∨ (a.winRate = b.winRate ∧ a.price ≤ b.price)

instance : DecidableRel crashLe := fun a b => by unfold crashLe; infer_instance

instance : IsTotal CrashRow crashLe where
  total a b := by
    rcases lt_trichotomy a.winRate b.winRate with h | h | h
    · exact Or.inr (Or.inl h)
    · rcases le_total a.price b.price with hp | hp
      · exact Or.inl (Or.inr ⟨h, hp⟩)
      · exact Or.inr (Or.inr ⟨h.symm, hp⟩)
    · exact Or.inl (Or.inl h)

instance : IsTrans CrashRow crashLe where
  trans a b c hab hbc := by
    rcases hab with h1 | ⟨h1, h1p⟩ <;> rcases hbc with h2 | ⟨h2, h2p⟩
    · exact Or.inl (h2.trans h1)
    · exact Or.inl (h2 ▸ h1)
    · exact Or.inl (h1 ▸ h2)
    · exact Or.inr ⟨h1.trans h2, h1p.trans h2p⟩

def crashSort (rows : List CrashRow) : List CrashRow := List.insertionSort crashLe rows

/-- weekly_box_breakout `main`: `sort_values(by='信号强度',
ascending=False)` on the integer score. -/
def weeklyGe (a b : WeeklyRow) : Prop := b.strength ≤ a.strength

instance : DecidableRel weeklyGe := fun a b => by unfold weeklyGe; infer_instance

instance : IsTotal WeeklyRow weeklyGe where
  total a b := le_total b.strength a.strength

instance : IsTrans WeeklyRow weeklyGe where
  trans _ _ _ hab hbc := le_trans hbc hab

def weeklySort (rows : List WeeklyRow) : List WeeklyRow := List.insertionSort weeklyGe rows

/-- volume_price `main`: `sort_values(by='信号强度', ascending=False)` on
the percent **strings** (lexicographic, as pandas compares objects). -/
def vpGe (a b : VPRow) : Prop := b.strength ≤ a.strength

instance : DecidableRel vpGe := fun a b => by unfold vpGe; infer_instance

instance : IsTotal VPRow vpGe where
  total a b := le_total b.strength a.strength

instance : IsTrans VPRow vpGe where
  trans _ _ _ hab hbc := le_trans hbc hab

def vpSort (rows : List VPRow) : List VPRow := List.insertionSort vpGe rows

/-- Float ascending order with NaN sorted last, as in stock_scanner_go's
`sort_values(by='今日量比', ascending=True)`. -/
def pvAscLe : PV → PV → Bool
  | .nan, .nan => true
  | .nan, _ => false
  | _, .nan => true
  | a, b => pvLeB a b

def scanLe (a b : ScanRow) : Prop := pvAscLe a.volRat b.volRat = true

instance : DecidableRel scanLe := fun a b => by unfold scanLe; infer_instance

def scanSort (rows : List ScanRow) : List ScanRow := List.insertionSort scanLe rows

/-- The name-table join used by the mains: keys zero-filled to six
digits, missing entries read `"未知"`. -/
def nameGetD (tbl : List (String × String)) (c : String) : String :=
  ((tbl.map fun p => (zfill6 p.1, p.2)).lookup c).getD "未知"

/-- `main` of volume_price_strategy.py at the level the claims need: the
name-table argument is `none` when `stock_names.csv` is absent, in which
case the run stops with the reported error before any per-symbol work;
otherwise every file is screened and the report is sorted. -/
def vpMain (tbl? : Option (List (String × String))) (files : List (String × Series)) :
    Except String (List VPRow) :=
  match tbl? with
  | none => .error "找不到名称映射文件: stock_names.csv"
  | some tbl =>
    .ok (vpSort ((files.map fun f => vpAnalyze f.1 (nameGetD tbl f.1) f.2).reduceOption))

/-- `main` of stock_scanner_go.py: when `stock_names.csv` is absent
(`tbl? = none`) the run does **not** abort — `name_map` stays empty, every
name resolves to the `"未知"` default, and the scan proceeds. -/
def scannerMain (tbl? : Option (List (String × String))) (files : List (String × Series)) :
    Except String (List ScanRow) :=
  let nameOf : String → String :=
    match tbl? with
    | none => fun _ => "未知"
    | some tbl => nameGetD tbl
  .ok (scanSort ((files.map fun f => process_single_stock f.1 (nameOf f.1) f.2).reduceOption))

/-! ## Concrete input data for counterexamples and witnesses -/

/-- 60 daily bars whose last six closes are flat, so the six-day average
loss of stock_scanner_go's RSI6 is exactly zero (NaN after the
`replace`), while every admission condition of `process_single_stock`
holds: last close 5, MA60 = 5.5 (room 10%), flat high/low band keeping
K low, and a half-sized final volume (ratio 0.5). -/
def scanDemo : Series :=
  (List.range 60).map fun i =>
    { date := i, code := "1", opn := 5, high := 14, low := 4
      close := if i < 30 then 6 else 5
      vol := if i = 59 then 50 else 100
      turnover := 1, pct := 0 }

/-- 60 bars with a constant close of 10: every delta is zero, so both
rolling averages of the crash_recovery RSI are zero at the last index. -/
def flatDemo : Series :=
  (List.range 60).map fun i =>
    { date := i, code := "1", opn := 10, high := 10, low := 10
      close := 10, vol := 100, turnover := 1, pct := 0 }

/-- 60 bars with a constant close of 25 — outside the 5–20 price band. -/
def flat25Demo : Series :=
  (List.range 60).map fun i =>
    { date := i, code := "1", opn := 25, high := 25, low := 25
      close := 25, vol := 100, turnover := 1, pct := 0 }

/-- 60 bars for dragon_breakout: close constant 10 (so no MACD gold
cross), year high 40 (drop ratio 0.75), recent platform high 12 (so no
breakout), and a final volume of 100 against a 28 five-day average (a
volume boost).  Score: 40 + 30 = 70 — admitted without a breakout. -/
def dragonDemo : Series :=
  (List.range 60).map fun i =>
    { date := i, code := "1", opn := 10, high := if i < 39 then 40 else 12, low := 5
      close := 10, vol := if i = 59 then 100 else 10
      turnover := 0, pct := 0 }

/-- 30 bars for volume_price_strategy: constant close 10 (MA20 = 10), a
last bar with +5% change, turnover 5, doubled volume and a full body
(high 10.05, low 9), hitting the strength-95 branch. -/
def vpDemo : Series :=
  (List.range 30).map fun i =>
    { date := i, code := "1", opn := 10
      high := if i = 29 then 201 / 20 else 10
      low := if i = 29 then 9 else 10
      close := 10
      vol := if i = 29 then 200 else 100
      turnover := 5
      pct := if i = 29 then 5 else 0 }

/-- A single daily bar (shorter than every minimum-length threshold). -/
def oneBarDemo : Series :=
  [{ date := 0, code := "1", opn := 10, high := 10, low := 10
     close := 10, vol := 100, turnover := 1, pct := 0 }]

/-- 80 daily bars on consecutive days: enough daily history for
weekly_box_breakout, but only 12 calendar weeks after resampling. -/
def daily80Demo : Series :=
  (List.range 80).map fun i =>
    { date := i, code := "1", opn := 10, high := 10, low := 10
      close := 10, vol := 100, turnover := 1, pct := 0 }

/-- Three bars across two calendar weeks (days 4, 5 of one week and day
11 of the next), with distinct open/high/low/close/volume values. -/
def weekAggDemo : Series :=
  [ { date := 4, code := "1", opn := 1, high := 5, low := 2, close := 3
      vol := 10, turnover := 0, pct := 0 }
  , { date := 5, code := "1", opn := 7, high := 9, low := 1, close := 6
      vol := 20, turnover := 0, pct := 0 }
  , { date := 11, code := "1", opn := 8, high := 4, low := 3, close := 2
      vol := 30, turnover := 0, pct := 0 } ]

/-- The score tier encoded in crash_recovery's `信号强度` label: the
five-star label is emitted exactly when the accumulated score reaches
85, the four-star label stands for the base score 70. -/
def statusScore (st : String) : ℕ := if st = "★★★★★ (一击必中)" then 85 else 70

/-- A crash_recovery result row with the five-star strength label
(score ≥ 85) but a low historical win rate. -/
def crashRowA : CrashRow :=
  { code := "600001", price := 6, pct := 0, rsi := .val 28, winRate := 10
    avgProfit := 0, strength := "★★★★★ (一击必中)", advice := "x" }

/-- A crash_recovery result row with the four-star strength label
(score 70) but a high historical win rate. -/
def crashRowB : CrashRow :=
  { code := "000001", price := 6, pct := 0, rsi := .val 30, winRate := 90
    avgProfit := 0, strength := "★★★★☆ (优选试错)", advice := "x" }

/-- The weekly bar that aggregates the first calendar week of
`weekAggDemo` (days 4 and 5). -/
def wAggBar : WBar := { week := 1, opn := 1, high := 9, low := 1, close := 6, vol := 30 }

instance exceptDecEq {ε α : Type} [DecidableEq ε] [DecidableEq α] :
    DecidableEq (Except ε α) := fun x y =>
  match x, y with
  | .error a, .error b =>
    if h : a = b then isTrue (by rw [h]) else isFalse (fun hh => h (Except.error.inj hh))
  | .ok a, .ok b =>
    if h : a = b then isTrue (by rw [h]) else isFalse (fun hh => h (Except.ok.inj hh))
  | .error _, .ok _ => isFalse (fun hh => Except.noConfusion hh)
  | .ok _, .error _ => isFalse (fun hh => Except.noConfusion hh)

/-! ## Helper lemmas -/

theorem getD_map_range (f : ℕ → α) (n i : ℕ) (d : α) :
    ((List.range n).map f).getD i d = if i < n then f i else d := by
  rw [List.getD_eq_getElem?_getD, List.getElem?_map]
  by_cases h : i < n
  · rw [List.getElem?_range h]
    simp [h]
  · rw [List.getElem?_eq_none (by simpa using Nat.le_of_not_lt h)]
    simp [h]

theorem lastD_eq_getD (d : α) (xs : List α) :
    lastD d xs = xs.getD (xs.length - 1) d := by
  rw [lastD, List.getLast?_eq_getElem?, List.getD_eq_getElem?_getD]

theorem lastD_map_range (f : ℕ → α) (n : ℕ) (d : α) (hn : 0 < n) :
    lastD d ((List.range n).map f) = f (n - 1) := by
  rw [lastD_eq_getD]
  simp only [List.length_map, List.length_range]
  rw [getD_map_range, if_pos (Nat.sub_lt hn Nat.one_pos)]

theorem length_diffsQ (xs : List ℚ) : (diffsQ xs).length = xs.length := by
  simp [diffsQ]

theorem length_gainsOf (cl : List ℚ) : (gainsOf cl).length = cl.length := by
  simp [gainsOf, length_diffsQ]

theorem length_lossesOf (cl : List ℚ) : (lossesOf cl).length = cl.length := by
  simp [lossesOf, length_diffsQ]

theorem length_rollMeanPV (n : ℕ) (xs : List PV) : (rollMeanPV n xs).length = xs.length := by
  simp [rollMeanPV]

theorem length_closes (s : Series) : (closes s).length = seriesLength s := by
  simp [closes, seriesLength]

theorem diffsQ_cases (cl : List ℚ) (d : PV) (hd : d ∈ diffsQ cl) :
    d = PV.nan ∨ ∃ q, d = PV.val q := by
  simp only [diffsQ, List.mem_map, List.mem_range] at hd
  obtain ⟨i, _, rfl⟩ := hd
  cases i with
  | zero => exact Or.inl rfl
  | succ j => exact Or.inr ⟨_, rfl⟩

theorem gainsOf_nonneg (cl : List ℚ) (v : PV) (hv : v ∈ gainsOf cl) :
    ∃ q, v = PV.val q ∧ 0 ≤ q := by
  simp only [gainsOf, List.mem_map] at hv
  obtain ⟨d, hd, rfl⟩ := hv
  rcases diffsQ_cases cl d hd with rfl | ⟨q, rfl⟩
  · exact ⟨0, by simp [pvLtB], le_refl 0⟩
  · by_cases h : (0 : ℚ) < q
    · exact ⟨q, by simp [pvLtB, h], le_of_lt h⟩
    · exact ⟨0, by simp [pvLtB, h], le_refl 0⟩

theorem lossesOf_nonneg (cl : List ℚ) (v : PV) (hv : v ∈ lossesOf cl) :
    ∃ q, v = PV.val q ∧ 0 ≤ q := by
  simp only [lossesOf, List.mem_map] at hv
  obtain ⟨d, hd, rfl⟩ := hv
  rcases diffsQ_cases cl d hd with rfl | ⟨q, rfl⟩
  · exact ⟨0, by simp [pvLtB], le_refl 0⟩
  · by_cases h : q < 0
    · exact ⟨-q, by simp [pvLtB, pvSub, h], by linarith⟩
    · exact ⟨0, by simp [pvLtB, h], le_refl 0⟩

theorem foldr_pvAdd_nonneg (w : List PV) (h : ∀ v ∈ w, ∃ q, v = PV.val q ∧ 0 ≤ q) :
    ∃ s, w.foldr pvAdd (PV.val 0) = PV.val s ∧ 0 ≤ s := by
  induction w with
  | nil => exact ⟨0, rfl, le_refl 0⟩
  | cons a as ih =>
    obtain ⟨q, rfl, hq⟩ := h a (List.mem_cons_self a as)
    obtain ⟨s, hs, hs0⟩ := ih fun v hv => h v (List.mem_cons_of_mem _ hv)
    refine ⟨q + s, ?_, by linarith⟩
    rw [List.foldr_cons, hs]
    rfl

theorem pvMean_nonneg (w : List PV) (h : ∀ v ∈ w, ∃ q, v = PV.val q ∧ 0 ≤ q) :
    pvMean w = PV.nan ∨ ∃ q, pvMean w = PV.val q ∧ 0 ≤ q := by
  cases w with
  | nil =>
    left
    simp [pvMean, pvDiv]
  | cons a as =>
    obtain ⟨s, hs, hs0⟩ := foldr_pvAdd_nonneg (a :: as) h
    right
    rw [pvMean, hs]
    have hlen : (as.length : ℚ) + 1 ≠ 0 := by positivity
    have hpos : (0 : ℚ) < (as.length : ℚ) + 1 := by positivity
    refine ⟨s / ((as.length : ℚ) + 1), ?_, div_nonneg hs0 (le_of_lt hpos)⟩
    simp [pvDiv, hlen]

theorem rollMeanPV_nonneg (n : ℕ) (xs : List PV)
    (h : ∀ v ∈ xs, ∃ q, v = PV.val q ∧ 0 ≤ q) (i : ℕ) :
    (rollMeanPV n xs).getD i PV.nan = PV.nan
      ∨ ∃ q, (rollMeanPV n xs).getD i PV.nan = PV.val q ∧ 0 ≤ q := by
  rw [rollMeanPV, getD_map_range]
  by_cases hi : i < xs.length
  · rw [if_pos hi]
    by_cases hn : i + 1 < n
    · rw [if_pos hn]
      exact Or.inl rfl
    · rw [if_neg hn]
      exact pvMean_nonneg _ fun v hv =>
        h v (List.take_subset (i + 1) xs (List.drop_subset _ _ hv))
  · rw [if_neg hi]
    exact Or.inl rfl

theorem rsiExpr_div_cases (g l : PV) (hg : g = PV.nan ∨ ∃ q, g = PV.val q ∧ 0 ≤ q)
    (hl : l = PV.nan ∨ ∃ q, l = PV.val q ∧ 0 ≤ q) :
    rsiExpr (pvDiv g l) = PV.nan
      ∨ ∃ q, rsiExpr (pvDiv g l) = PV.val q ∧ 0 ≤ q ∧ q ≤ 100 := by
  rcases hg with rfl | ⟨a, rfl, ha⟩
  · left
    cases l <;> rfl
  rcases hl with rfl | ⟨b, rfl, hb⟩
  · left
    rfl
  by_cases hb0 : b = 0
  · subst hb0
    by_cases ha0 : a = 0
    · subst ha0
      left
      simp [pvDiv, rsiExpr, pvAdd, pvSub]
    · have ha' : 0 < a := lt_of_le_of_ne ha (Ne.symm ha0)
      right
      refine ⟨100, ?_, by norm_num, le_refl _⟩
      simp [pvDiv, ha0, ha', rsiExpr, pvAdd, pvSub]
  · have hbpos : 0 < b := lt_of_le_of_ne hb (Ne.symm hb0)
    have hq0 : 0 ≤ a / b := div_nonneg ha (le_of_lt hbpos)
    have h1q : (0 : ℚ) < 1 + a / b := by linarith
    right
    refine ⟨100 - 100 / (1 + a / b), ?_, ?_, ?_⟩
    · simp [pvDiv, hb0, rsiExpr, pvAdd, pvSub, h1q.ne']
    · have hd : 0 < 100 / (1 + a / b) := div_pos (by norm_num) h1q
      have hd2 : 100 / (1 + a / b) ≤ 100 := div_le_self (by norm_num) (by linarith)
      linarith
    · have hd : 0 < 100 / (1 + a / b) := div_pos (by norm_num) h1q
      linarith

theorem crashRSIat_cases (cl : List ℚ) (i : ℕ) :
    crashRSIat cl i = PV.nan ∨ ∃ q, crashRSIat cl i = PV.val q ∧ 0 ≤ q ∧ q ≤ 100 := by
  exact rsiExpr_div_cases _ _
    (rollMeanPV_nonneg 14 _ (gainsOf_nonneg cl) i)
    (rollMeanPV_nonneg 14 _ (lossesOf_nonneg cl) i)

theorem scanRSI6at_cases (cl : List ℚ) (i : ℕ) :
    scanRSI6at cl i = PV.nan ∨ ∃ q, scanRSI6at cl i = PV.val q ∧ 0 ≤ q ∧ q ≤ 100 := by
  rw [scanRSI6at]
  apply rsiExpr_div_cases _ _ (rollMeanPV_nonneg 6 _ (gainsOf_nonneg cl) i)
  by_cases h : (rollMeanPV 6 (lossesOf cl)).getD i PV.nan = PV.val 0
  · rw [if_pos h]
    exact Or.inl rfl
  · rw [if_neg h]
    exact rollMeanPV_nonneg 6 _ (lossesOf_nonneg cl) i

/-- When the 14-day loss average is exactly zero, the crash_recovery RSI
cell is `100` (positive gains) or NaN (flat window); either way the
`RSI < 35` admission comparison is `false`. -/
theorem crash_rsi_lt35_false_of_zero_loss (cl : List ℚ) (i : ℕ)
    (h : (rollMeanPV 14 (lossesOf cl)).getD i PV.nan = PV.val 0) :
    pvLtB (crashRSIat cl i) (PV.val 35) = false := by
  rw [crashRSIat, h]
  rcases rollMeanPV_nonneg 14 _ (gainsOf_nonneg cl) i with hg | ⟨a, hg, ha⟩
  · rw [hg]
    rfl
  · rw [hg]
    by_cases ha0 : a = 0
    · subst ha0
      simp [pvDiv, rsiExpr, pvAdd, pvSub, pvLtB]
    · have ha' : 0 < a := lt_of_le_of_ne ha (Ne.symm ha0)
      have hdiv : pvDiv (PV.val a) (PV.val 0) = PV.inf := by
        simp [pvDiv, ha0, ha']
      rw [hdiv]
      have hrsi : rsiExpr PV.inf = PV.val 100 := by
        simp [rsiExpr, pvAdd, pvDiv, pvSub]
      rw [hrsi]
      simp [pvLtB]
      norm_num

/-- The last buy-signal cell is the pointwise signal at the last index. -/
theorem lastD_crashBuySignals (s : Series) (hn : 0 < seriesLength s) :
    lastD false (crashBuySignals s) = crashBuyAt s (seriesLength s - 1) := by
  rw [crashBuySignals, lastD_map_range _ _ _ hn]

/-! ## Claim theorems -/

/-- C1: every RSI cell computed by crash_recovery's `calculate_indicators`
(14-day) and stock_scanner_go's `calculate_indicators` (6-day) is either
NaN or a rational in the interval [0, 100]; and a NaN RSI cell makes the
crash_recovery buy-signal conjunction false, so no out-of-range RSI value
can reach the admission conditions. -/
theorem C1_rsi_bounded :
    (∀ cl i, (crashRSI cl).getD i PV.nan = PV.nan
        ∨ ∃ q, (crashRSI cl).getD i PV.nan = PV.val q ∧ 0 ≤ q ∧ q ≤ 100)
    ∧ (∀ cl i, (scanRSI6 cl).getD i PV.nan = PV.nan
        ∨ ∃ q, (scanRSI6 cl).getD i PV.nan = PV.val q ∧ 0 ≤ q ∧ q ≤ 100)
    ∧ (∀ s i, crashRSIat (closes s) i = PV.nan → crashBuyAt s i = false) := by
  refine ⟨?_, ?_, ?_⟩
  · intro cl i
    rw [crashRSI, getD_map_range]
    by_cases h : i < cl.length
    · rw [if_pos h]
      exact crashRSIat_cases cl i
    · rw [if_neg h]
      exact Or.inl rfl
  · intro cl i
    rw [scanRSI6, getD_map_range]
    by_cases h : i < cl.length
    · rw [if_pos h]
      exact scanRSI6at_cases cl i
    · rw [if_neg h]
      exact Or.inl rfl
  · intro s i h
    simp only [crashBuyAt, h]
    rfl

/-- C1 witness: on the constant-price series the last RSI cell is NaN
(zero gain over zero loss) and the buy signal at the last index is
`false`. -/
theorem C1_rsi_bounded_witness : crashBuyAt flatDemo 59 = false :=
  C1_rsi_bounded.2.2 flatDemo 59 (by with_unfolding_all decide)

/-- C2 counterexample: on `scanDemo` the six-day loss average at the last
index is exactly zero, so the RSI6 cell is NaN (an indeterminate
indicator from a zero denominator) — yet `process_single_stock` returns a
qualifying result, because `NaN > RSI6_MAX` is false and the symbol is
therefore *not* rejected by the over-threshold check. -/
theorem C2_zero_loss_admitted :
    lastD PV.nan (rollMeanPV 6 (lossesOf (closes scanDemo))) = PV.val 0
    ∧ lastD PV.nan (scanRSI6 (closes scanDemo)) = PV.nan
    ∧ (process_single_stock "000001" "未知" scanDemo).isSome = true := by
  refine ⟨?_, ?_, ?_⟩
  · with_unfolding_all decide
  · with_unfolding_all decide
  · with_unfolding_all decide

/-- C2 amended: in crash_recovery_strategy a zero 14-day average loss at
the latest bar (the divide-by-zero case of the RSI) always leads to
`backtest_and_screen` returning no result, without an exception (the
embedding is total); in stock_scanner_go the analogous case is *not*
excluded (see the counterexample). -/
theorem C2_amended_zero_loss_excluded (s : Series)
    (h : lastD PV.nan (rollMeanPV 14 (lossesOf (closes s))) = PV.val 0) :
    backtest_and_screen s = none := by
  by_cases hlen : seriesLength s < 60
  · simp only [backtest_and_screen]
    rw [if_pos hlen]
  · have hn : 0 < seriesLength s := by omega
    have hlenroll : (rollMeanPV 14 (lossesOf (closes s))).length = seriesLength s := by
      rw [length_rollMeanPV, length_lossesOf, length_closes]
    have hidx : (rollMeanPV 14 (lossesOf (closes s))).getD (seriesLength s - 1) PV.nan
        = PV.val 0 := by
      rw [← hlenroll]
      rw [lastD_eq_getD] at h
      exact h
    have hbuy : lastD false (crashBuySignals s) = false := by
      rw [lastD_crashBuySignals s hn]
      simp only [crashBuyAt, crash_rsi_lt35_false_of_zero_loss _ _ hidx]
      rfl
    simp only [backtest_and_screen]
    rw [if_neg hlen]
    split
    · rfl
    split
    · rfl
    rw [hbuy]
    simp

/-- C2 amended witness: the constant-price series has a zero loss average
at its last index and is rejected. -/
theorem C2_amended_zero_loss_excluded_witness : backtest_and_screen flatDemo = none :=
  C2_amended_zero_loss_excluded flatDemo (by with_unfolding_all decide)

/-- C3: a series shorter than the tactic's minimum (60 daily bars for
crash_recovery; 80 daily or 30 weekly bars for weekly_box_breakout)
yields no result — the pipelines return `none` at the length guard. -/
theorem C3_short_series_rejected :
    (∀ s, seriesLength s < 60 → backtest_and_screen s = none)
    ∧ (∀ code nm s, seriesLength s < 80 → screen_stock code nm s = none)
    ∧ (∀ code nm s, (resampleW s).length < 30 → screen_stock code nm s = none) := by
  refine ⟨?_, ?_, ?_⟩
  · intro s h
    simp only [backtest_and_screen]
    rw [if_pos h]
  · intro code nm s h
    simp only [screen_stock]
    rw [if_pos h]
  · intro code nm s h
    simp only [screen_stock]
    split
    · rfl
    split
    · rfl
    split
    · rfl
    rfl

/-- C3 witness: a one-bar series is rejected by both pipelines, and an
80-day series spanning only 12 calendar weeks is rejected by the weekly
length guard. -/
theorem C3_short_series_rejected_witness :
    backtest_and_screen oneBarDemo = none
    ∧ screen_stock "000001" "平安银行" oneBarDemo = none
    ∧ screen_stock "000001" "平安银行" daily80Demo = none :=
  ⟨C3_short_series_rejected.1 oneBarDemo (by with_unfolding_all decide),
   C3_short_series_rejected.2.1 "000001" "平安银行" oneBarDemo (by with_unfolding_all decide),
   C3_short_series_rejected.2.2 "000001" "平安银行" daily80Demo (by with_unfolding_all decide)⟩

/-- C4: whenever the latest close lies outside the configured [5, 20]
band, dragon_breakout's `screen_logic` and crash_recovery's
`backtest_and_screen` produce no result, whatever the rest of the data. -/
theorem C4_price_band (nameOf : String → String) (s : Series)
    (h : ¬(5 ≤ (lastBar s).close ∧ (lastBar s).close ≤ 20)) :
    screen_logic nameOf s = none ∧ backtest_and_screen s = none := by
  constructor
  · simp only [screen_logic]
    split
    · rfl
    split
    · rfl
    rfl
  · simp only [backtest_and_screen]
    split
    · rfl
    split
    · rfl
    rfl

/-- C4 witness: a 60-bar series closing at 25.0 is rejected by both
pipelines. -/
theorem C4_price_band_witness :
    screen_logic (fun _ => "未知") flat25Demo = none ∧ backtest_and_screen flat25Demo = none :=
  C4_price_band (fun _ => "未知") flat25Demo (by with_unfolding_all decide)

/-- C5: the per-symbol pipelines are deterministic — they are total
functions of the parsed file contents (and the read-only name data), so
two runs on equal inputs produce equal `ScreenResult` outputs. -/
theorem C5_determinism (code : String) (s t : Series) (h : s = t) :
    analyze_stock code s = analyze_stock code t
    ∧ backtest_and_screen s = backtest_and_screen t := by
  subst h
  exact ⟨rfl, rfl⟩

/-- C5 witness: replaying the pipelines on the same concrete series. -/
theorem C5_determinism_witness :
    analyze_stock "000001" flatDemo = analyze_stock "000001" flatDemo
    ∧ backtest_and_screen flatDemo = backtest_and_screen flatDemo :=
  C5_determinism "000001" flatDemo flatDemo rfl

/-- The first chunk of `chunkByWeek` is the maximal prefix in the head's
calendar week; the rest is the chunking of the remainder. -/
theorem chunkByWeek_cons (b : Bar) (bs : List Bar) :
    chunkByWeek (b :: bs) =
      (b :: bs.takeWhile fun x => weekIdx x.date == weekIdx b.date)
        :: chunkByWeek (bs.dropWhile fun x => weekIdx x.date == weekIdx b.date) := by
  induction bs generalizing b with
  | nil => rfl
  | cons c cs ih =>
    by_cases h : weekIdx c.date = weekIdx b.date
    · rw [chunkByWeek, ih c]
      simp only [List.takeWhile_cons, List.dropWhile_cons, h, beq_self_eq_true, if_pos,
        beq_iff_eq]
    · rw [chunkByWeek, ih c]
      simp only [List.takeWhile_cons, List.dropWhile_cons, beq_iff_eq]
      rw [if_neg fun hh => h hh.symm, if_neg h, if_neg h, ih c]

/-- Calendar-week indices are monotone in the day number. -/
theorem weekIdx_mono {d e : ℕ} (h : d ≤ e) : weekIdx d ≤ weekIdx e :=
  Nat.div_le_div_right (Nat.add_le_add_right h 3)

/-- The default-valued head of a non-empty list is a member. -/
theorem headI_mem {α : Type} [Inhabited α] : ∀ (l : List α), l ≠ [] → l.headI ∈ l
  | [], h => absurd rfl h
  | a :: l, _ => List.mem_cons_self a l

/-- On a date-sorted list whose week indices all lie at or above `K`,
filtering for week `K` is the same as taking the initial `K`-week run. -/
theorem filter_key_eq_takeWhile (K : ℕ) :
    ∀ bs : List Bar, (∀ x ∈ bs, K ≤ weekIdx x.date) →
      List.Pairwise (fun a b : Bar => a.date < b.date) bs →
      bs.filter (fun x => weekIdx x.date == K) = bs.takeWhile (fun x => weekIdx x.date == K)
  | [], _, _ => rfl
  | c :: cs, hall, hp => by
    rcases List.pairwise_cons.mp hp with ⟨hc, hp2⟩
    rw [List.filter_cons, List.takeWhile_cons]
    by_cases h : weekIdx c.date = K
    · rw [if_pos (by simp [h]), if_pos (by simp [h]),
        filter_key_eq_takeWhile K cs (fun x hx => hall x (List.mem_cons_of_mem _ hx)) hp2]
    · have hlt : K < weekIdx c.date :=
        lt_of_le_of_ne (hall c (List.mem_cons_self _ _)) (Ne.symm h)
      rw [if_neg (by simp [h]), if_neg (by simp [h])]
      refine List.filter_eq_nil_iff.mpr fun x hx => ?_
      have h2 := weekIdx_mono (le_of_lt (hc x hx))
      simp only [beq_iff_eq]
      omega

/-- After dropping the initial week-`K` run of a date-sorted list, every
remaining bar lies in a strictly later week. -/
theorem dropWhile_key_gt (K : ℕ) :
    ∀ bs : List Bar, (∀ x ∈ bs, K ≤ weekIdx x.date) →
      List.Pairwise (fun a b : Bar => a.date < b.date) bs →
      ∀ x ∈ bs.dropWhile (fun y => weekIdx y.date == K), K < weekIdx x.date
  | [], _, _ => by simp [List.dropWhile]
  | c :: cs, hall, hp => by
    rcases List.pairwise_cons.mp hp with ⟨hc, hp2⟩
    rw [List.dropWhile_cons]
    by_cases h : weekIdx c.date = K
    · rw [if_pos (by simp [h])]
      exact dropWhile_key_gt K cs (fun x hx => hall x (List.mem_cons_of_mem _ hx)) hp2
    · rw [if_neg (by simp [h])]
      intro x hx
      have hcK : K < weekIdx c.date :=
        lt_of_le_of_ne (hall c (List.mem_cons_self _ _)) (Ne.symm h)
      rcases List.mem_cons.mp hx with rfl | hx2
      · exact hcK
      · have h2 := weekIdx_mono (le_of_lt (hc x hx2))
        omega

/-- For strictly increasing dates, every chunk produced by `chunkByWeek`
is exactly the (non-empty) set of bars of its calendar week. -/
theorem chunk_eq_filter : ∀ (n : ℕ) (s : List Bar), s.length ≤ n →
    List.Pairwise (fun a b : Bar => a.date < b.date) s →
    ∀ g ∈ chunkByWeek s,
      g ≠ [] ∧ g = s.filter fun x => weekIdx x.date == weekIdx g.headI.date
  | 0, s, hlen, _, g, hg => by
    have hs : s = [] := List.length_eq_zero.mp (Nat.le_zero.mp hlen)
    subst hs
    simp [chunkByWeek] at hg
  | n + 1, [], _, _, g, hg => by simp [chunkByWeek] at hg
  | n + 1, b :: bs, hlen, hp, g, hg => by
    rcases List.pairwise_cons.mp hp with ⟨hb, hpbs⟩
    have hball : ∀ x ∈ bs, weekIdx b.date ≤ weekIdx x.date :=
      fun x hx => weekIdx_mono (le_of_lt (hb x hx))
    rw [chunkByWeek_cons] at hg
    rcases List.mem_cons.mp hg with rfl | hg2
    · refine ⟨List.cons_ne_nil _ _, ?_⟩
      have hhead : (b :: bs.takeWhile fun x => weekIdx x.date == weekIdx b.date).headI = b := rfl
      rw [hhead, List.filter_cons, if_pos (by simp),
        filter_key_eq_takeWhile _ bs hball hpbs]
    · have hsub : List.Sublist (bs.dropWhile fun x => weekIdx x.date == weekIdx b.date) bs :=
        List.dropWhile_sublist _
      have hlen2 : (bs.dropWhile fun x => weekIdx x.date == weekIdx b.date).length ≤ n := by
        have h1 := hsub.length_le
        have h2 : (b :: bs).length ≤ n + 1 := hlen
        simp only [List.length_cons] at h2
        omega
      obtain ⟨hne, hfe⟩ := chunk_eq_filter n _ hlen2 (hpbs.sublist hsub) g hg2
      refine ⟨hne, ?_⟩
      have hmem : g.headI ∈ bs.dropWhile fun x => weekIdx x.date == weekIdx b.date := by
        have h1 := headI_mem g hne
        nth_rewrite 1 [hfe] at h1
        exact List.mem_of_mem_filter h1
      have hgt : weekIdx b.date < weekIdx g.headI.date :=
        dropWhile_key_gt _ bs hball hpbs _ hmem
      have e1 : List.filter (fun x => weekIdx x.date == weekIdx g.headI.date) (b :: bs)
          = List.filter (fun x => weekIdx x.date == weekIdx g.headI.date) bs := by
        rw [List.filter_cons, if_neg (by simp only [beq_iff_eq]; omega)]
      have e2 : List.filter (fun x => weekIdx x.date == weekIdx g.headI.date)
            (bs.takeWhile fun x => weekIdx x.date == weekIdx b.date) = [] := by
        refine List.filter_eq_nil_iff.mpr fun x hx => ?_
        have hxk := List.mem_takeWhile_imp hx
        simp only [beq_iff_eq] at hxk ⊢
        omega
      have e3 : List.filter (fun x => weekIdx x.date == weekIdx g.headI.date) bs
          = List.filter (fun x => weekIdx x.date == weekIdx g.headI.date)
              (bs.dropWhile fun x => weekIdx x.date == weekIdx b.date) := by
        conv_lhs => rw [← List.takeWhile_append_dropWhile
          (p := fun x : Bar => weekIdx x.date == weekIdx b.date) (l := bs)]
        rw [List.filter_append, e2, List.nil_append]
      rw [e1, e3, ← hfe]

/-- C6: under the strictly-increasing-dates invariant, every weekly bar
produced by weekly_box_breakout's resampling step aggregates exactly the
daily bars of its calendar week, with open = first daily open,
high = max daily high, low = min daily low, close = last daily close and
volume = sum of daily volumes. -/
theorem C6_weekly_resample (s : Series)
    (hs : List.Pairwise (fun a b : Bar => a.date < b.date) s) :
    ∀ wb ∈ resampleW s,
      (List.filter (fun x => weekIdx x.date == wb.week) s) ≠ []
      ∧ wb.opn = (List.filter (fun x => weekIdx x.date == wb.week) s).headI.opn
      ∧ wb.high = qmax ((List.filter (fun x => weekIdx x.date == wb.week) s).map Bar.high)
      ∧ wb.low = qmin ((List.filter (fun x => weekIdx x.date == wb.week) s).map Bar.low)
      ∧ wb.close = (lastD default (List.filter (fun x => weekIdx x.date == wb.week) s)).close
      ∧ wb.vol = qsum ((List.filter (fun x => weekIdx x.date == wb.week) s).map Bar.vol) := by
  intro wb hwb
  rw [resampleW] at hwb
  obtain ⟨g, hg, rfl⟩ := List.mem_map.mp hwb
  obtain ⟨hne, hfe⟩ := chunk_eq_filter (List.length s) s le_rfl hs g hg
  have hfe2 : List.filter (fun x => weekIdx x.date == (aggWeek g).week) s = g := by
    rw [show (aggWeek g).week = weekIdx g.headI.date from rfl, ← hfe]
  rw [hfe2]
  exact ⟨hne, rfl, rfl, rfl, rfl, rfl⟩

/-- C6 witness: the concrete three-bar series spanning two calendar weeks,
instantiated at its first weekly bar. -/
theorem C6_weekly_resample_witness :
    (List.filter (fun x => weekIdx x.date == wAggBar.week) weekAggDemo) ≠ []
    ∧ wAggBar.opn = (List.filter (fun x => weekIdx x.date == wAggBar.week) weekAggDemo).headI.opn
    ∧ wAggBar.high = qmax ((List.filter (fun x => weekIdx x.date == wAggBar.week) weekAggDemo).map Bar.high)
    ∧ wAggBar.low = qmin ((List.filter (fun x => weekIdx x.date == wAggBar.week) weekAggDemo).map Bar.low)
    ∧ wAggBar.close = (lastD default (List.filter (fun x => weekIdx x.date == wAggBar.week) weekAggDemo)).close
    ∧ wAggBar.vol = qsum ((List.filter (fun x => weekIdx x.date == wAggBar.week) weekAggDemo).map Bar.vol) :=
  C6_weekly_resample weekAggDemo (by decide) wAggBar (by with_unfolding_all decide)

/-- C7 counterexample: crash_recovery's report sort orders by historical
win rate (then price), not by the strength tier — a five-star row (tier
score 85) with win rate 10 is listed after a four-star row (tier score
70) with win rate 90. -/
theorem C7_crash_sort_not_by_strength :
    crashSort [crashRowA, crashRowB] = [crashRowB, crashRowA]
    ∧ statusScore crashRowB.strength < statusScore crashRowA.strength := by
  refine ⟨by decide, by decide⟩

/-- C7 amended: weekly_box_breakout sorts its report by the integer
strength score descending and volume_price by the percent-string strength
descending, so a higher-scoring row always appears first there; the
crash_recovery report is instead ordered by win rate descending with
price ascending as tie-break.  Each sort emits a permutation of its
input rows. -/
theorem C7_report_sort_orders :
    (∀ rows, List.Sorted weeklyGe (weeklySort rows))
    ∧ (∀ rows, List.Sorted vpGe (vpSort rows))
    ∧ (∀ rows, List.Sorted crashLe (crashSort rows))
    ∧ (∀ rows, List.Perm (weeklySort rows) rows)
    ∧ (∀ rows, List.Perm (vpSort rows) rows)
    ∧ (∀ rows, List.Perm (crashSort rows) rows) :=
  ⟨fun rows => List.sorted_insertionSort weeklyGe rows,
   fun rows => List.sorted_insertionSort vpGe rows,
   fun rows => List.sorted_insertionSort crashLe rows,
   fun rows => List.perm_insertionSort weeklyGe rows,
   fun rows => List.perm_insertionSort vpGe rows,
   fun rows => List.perm_insertionSort crashLe rows⟩

/-- C8 counterexample: with the name-table file absent, stock_scanner_go's
`main` does not abort — it completes the per-symbol scan with an empty
name map and still emits the qualifying symbol. -/
theorem C8_scanner_continues_without_table :
    Except.map (List.map ScanRow.code) (scannerMain none [("000001", scanDemo)])
      = Except.ok ["000001"] := by
  with_unfolding_all decide

/-- C8 amended: in volume_price_strategy an absent name table is fatal:
`main` reports the single error, and the outcome is independent of the
per-symbol input files, i.e. the run aborts before any per-symbol work. -/
theorem C8_amended_vp_fatal_before_work :
    (∀ files, vpMain none files = Except.error "找不到名称映射文件: stock_names.csv")
    ∧ (∀ files files2, vpMain none files = vpMain none files2) :=
  ⟨fun _ => rfl, fun _ _ => rfl⟩

/-- C9: dragon_breakout admission is equivalent to passing the length,
code-prefix and price-band gates and reaching 70 points, where the score
is built solely from the over-drop (+40), volume-boost (+30) and MACD
gold-cross (+30) conditions; the platform-breakout flag appears only in
the advisory text, and the concrete `dragonDemo` series is admitted
without having broken its platform high. -/
theorem C9_dragon_admission :
    (∀ nameOf s, (screen_logic nameOf s).isSome = true
        ↔ (60 ≤ seriesLength s ∧ dragonPrefixOk (zfill6 (lastBar s).code) = true
            ∧ (5 ≤ (lastBar s).close ∧ (lastBar s).close ≤ 20) ∧ 70 ≤ dragonScore s))
    ∧ (screen_logic (fun _ => "未知") dragonDemo).isSome = true
    ∧ dragonBreakout dragonDemo = false := by
  refine ⟨?_, by with_unfolding_all decide, by with_unfolding_all decide⟩
  intro nameOf s
  simp only [screen_logic]
  split_ifs with h1 h2 h3 h4 <;> simp_all

/-- C9 witness: the admission equivalence applied at the concrete
no-breakout series. -/
theorem C9_dragon_admission_witness :
    (screen_logic (fun _ => "未知") dragonDemo).isSome = true :=
  (C9_dragon_admission.1 (fun _ => "未知") dragonDemo).mpr (by with_unfolding_all decide)

/-- C10: every row emitted by volume_price_strategy carries the symbol
code with a single-quote character prepended, and that cell never equals
the raw code string. -/
theorem C10_vp_code_quoted (code nm : String) (s : Series) (r : VPRow)
    (h : vpAnalyze code nm s = some r) :
    r.codeCell = quoteMark ++ code ∧ r.codeCell ≠ code := by
  have hcell : r.codeCell = quoteMark ++ code := by
    simp only [vpAnalyze] at h
    repeat' split at h
    all_goals
      first
        | (have hr := Option.some.inj h
           subst hr
           rfl)
        | exact absurd h (by simp)
  refine ⟨hcell, ?_⟩
  rw [hcell]
  intro he
  have hlen := congrArg String.length he
  rw [String.length_append] at hlen
  have hq : quoteMark.length = 1 := rfl
  omega

/-- C10 witness: the quoted-code property at a concrete admitted symbol. -/
theorem C10_vp_code_quoted_witness :
    (Option.map VPRow.codeCell (vpAnalyze "000001" "平安银行" vpDemo)).getD ""
      = quoteMark ++ "000001"
    ∧ (Option.map VPRow.codeCell (vpAnalyze "000001" "平安银行" vpDemo)).getD "" ≠ "000001" := by
  have hs : (vpAnalyze "000001" "平安银行" vpDemo).isSome = true := by with_unfolding_all decide
  obtain ⟨r, hr⟩ := Option.isSome_iff_exists.mp hs
  obtain ⟨h1, h2⟩ := C10_vp_code_quoted "000001" "平安银行" vpDemo r hr
  rw [hr]
  exact ⟨by simpa using h1, by simpa using h2⟩

end StockScreen
